import Mathlib

/-
Verification of the cdtools differentiable forward-model / optimization core.

The definitions below are a shallow embedding of:
  * CDTools/tools/measurements/measurements.py (intensity, incoherent_sum,
    quadratic_background),
  * CDTools/tools/polarization/polarization.py (apply_jones_matrix,
    apply_linear_polarizer, apply_phase_retardance),
  * src/cdtools/models/base.py (the CDIModel stage contract, forward, and
    the AD_optimize epoch / minibatch / gradient-accumulation loop).

Complex scalars are embedded as pairs of rationals (the sources store complex
tensors as real tensors with a trailing axis of size 2); 2D tensors become
lists of rows; fallible Python calls return Except values.
-/

/-- A complex scalar, stored as (real, imaginary) just as the sources store
complex tensors with a trailing real axis of size 2. -/
abbrev Cplx : Type := ℚ × ℚ

/-- Modelled from the spec: cmath.cabssq (the cmath module is not among the
sources under src/) returns the elementwise magnitude squared of a complex
wavefield; the spec fixes the result of the measurement core as the squared
magnitude of the wavefield. -/
def cabssq (z : Cplx) : ℚ := z.1 ^ 2 + z.2 ^ 2

/-- A real-valued 2D tensor: a list of rows. -/
abbrev RMatrix : Type := List (List ℚ)

/-- A complex-valued 2D tensor: a list of rows of complex scalars. -/
abbrev CMatrix : Type := List (List Cplx)

/-- cmath.cabssq applied to a whole M x N x 2 tensor: elementwise magnitude
squared. -/
def cabssqM (w : CMatrix) : RMatrix := w.map (fun row => row.map cabssq)

/-- torch.nn.functional.avg_pool2d with a square kernel of width k and the
default stride (= k), no padding, floor mode: output pixel (i, j) is the
average of the k x k input block starting at (i * k, j * k); incomplete
trailing blocks are dropped. -/
def avg_pool2d (m : RMatrix) (k : Nat) : RMatrix :=
  (List.range (m.length / k)).map (fun i =>
    (List.range ((m.headD []).length / k)).map (fun j =>
      ((((m.drop (i * k)).take k).map
        (fun row => ((row.drop (j * k)).take k).sum)).sum) / ((k : ℚ) * k)))

/-- A detector slice: the rectangular region with rows in [rlo, rhi) and
columns in [clo, chi), the embedding of a pair of Python slices. -/
structure DetSlice where
  rlo : Nat
  rhi : Nat
  clo : Nat
  chi : Nat
  deriving DecidableEq

/-- Restrict a matrix to a detector slice (NumPy basic slicing on both
spatial axes). -/
def applySlice (m : RMatrix) (s : DetSlice) : RMatrix :=
  ((m.drop s.rlo).take (s.rhi - s.rlo)).map
    (fun row => (row.drop s.clo).take (s.chi - s.clo))

/-- torch.clamp(x, lo, hi). -/
def clampQ (x lo hi : ℚ) : ℚ := min (max x lo) hi

/-- measurements.intensity, in the single-wavefield branch (an M x N x 2
complex wavefield; the source dispatches on the tensor dimension only to
place the same pooling and slicing on the spatial axes).  Mirrors the source
statement by statement: magnitude squared, then average binning when
oversampling is not 1, then the detector slice when given, then epsilon is
added and, when a saturation is given, the result is clamped to
[0, saturation]. -/
def intensity (wavefield : CMatrix) (detector_slice : Option DetSlice)
    (epsilon : ℚ) (saturation : Option ℚ) (oversampling : Nat) : RMatrix :=
  let output := cabssqM wavefield
  let output := if oversampling ≠ 1 then avg_pool2d output oversampling else output
  let output := match detector_slice with
    | none => output
    | some s => applySlice output s
  match saturation with
  | none => output.map (fun row => row.map (fun x => x + epsilon))
  | some sat => output.map (fun row => row.map (fun x => clampQ (x + epsilon) 0 sat))

/-- Elementwise sum of two rows (tensor addition on one row). -/
def addRows (a b : List ℚ) : List ℚ := List.zipWith (fun x y => x + y) a b

/-- Elementwise sum of two real matrices (tensor addition). -/
def addM (a b : RMatrix) : RMatrix := List.zipWith addRows a b

/-- torch.sum over the leading axis of an L x M x N stack of real matrices. -/
def sumStack (ws : List RMatrix) : RMatrix :=
  match ws with
  | [] => []
  | w :: rest => rest.foldl addM w

/-- measurements.incoherent_sum, in the single-pattern branch (an
L x M x N x 2 stack of complex wavefields).  The magnitudes squared are
summed over the leading axis first; the binning, slicing, epsilon and
saturation steps follow exactly as in intensity. -/
def incoherent_sum (wavefields : List CMatrix) (detector_slice : Option DetSlice)
    (epsilon : ℚ) (saturation : Option ℚ) (oversampling : Nat) : RMatrix :=
  let output := sumStack (wavefields.map cabssqM)
  let output := if oversampling ≠ 1 then avg_pool2d output oversampling else output
  let output := match detector_slice with
    | none => output
    | some s => applySlice output s
  match saturation with
  | none => output.map (fun row => row.map (fun x => x + epsilon))
  | some sat => output.map (fun row => row.map (fun x => clampQ (x + epsilon) 0 sat))

/-- Elementwise square of a real matrix (background ** 2 in the source). -/
def squareM (b : RMatrix) : RMatrix := b.map (fun row => row.map (fun x => x ^ 2))

/-- measurements.quadratic_background: the configured measurement of the
wavefield is computed without any saturation, the squared background is
added, and only then is the optional saturation clamp applied (the source
replicates the clamp after the addition for exactly this reason). -/
def quadratic_background (wavefield : CMatrix) (background : RMatrix)
    (detector_slice : Option DetSlice)
    (measurement : CMatrix → Option DetSlice → ℚ → Option ℚ → Nat → RMatrix)
    (epsilon : ℚ) (saturation : Option ℚ) (oversampling : Nat) : RMatrix :=
  let output := match detector_slice with
    | none => addM (measurement wavefield none epsilon none oversampling)
        (squareM background)
    | some s => addM (measurement wavefield (some s) epsilon none oversampling)
        (squareM background)
  match saturation with
  | none => output
  | some sat => output.map (fun row => row.map (fun x => clampQ x 0 sat))

/-- The bin / slice / epsilon / clamp tail shared by intensity and
incoherent_sum, factored out of the source text so that both functions can
be compared against it. -/
def measurePipeline (core : RMatrix) (detector_slice : Option DetSlice)
    (epsilon : ℚ) (saturation : Option ℚ) (oversampling : Nat) : RMatrix :=
  let output := if oversampling ≠ 1 then avg_pool2d core oversampling else core
  let output := match detector_slice with
    | none => output
    | some s => applySlice output s
  match saturation with
  | none => output.map (fun row => row.map (fun x => x + epsilon))
  | some sat => output.map (fun row => row.map (fun x => clampQ (x + epsilon) 0 sat))

/-- The intensity pipeline in the words of the spec: squared magnitude, then
(when the oversampling factor exceeds 1) k x k average binning, then the
optional slice, then epsilon, then the optional clamp into [0, saturation]. -/
def specIntensity (wavefield : CMatrix) (detector_slice : Option DetSlice)
    (epsilon : ℚ) (saturation : Option ℚ) (oversampling : Nat) : RMatrix :=
  let output := cabssqM wavefield
  let output := if 1 < oversampling then avg_pool2d output oversampling else output
  let output := match detector_slice with
    | none => output
    | some s => applySlice output s
  match saturation with
  | none => output.map (fun row => row.map (fun x => x + epsilon))
  | some sat => output.map (fun row => row.map (fun x => clampQ (x + epsilon) 0 sat))

/-- Apply the optional saturation clamp (used to state how
quadratic_background orders the clamp after the background addition). -/
def applyOptSat (saturation : Option ℚ) (m : RMatrix) : RMatrix :=
  match saturation with
  | none => m
  | some sat => m.map (fun row => row.map (fun x => clampQ x 0 sat))

/-- Errors raised by the embedded Python code. -/
inductive PyError where
  | notImplementedError : PyError
  | nameError : String → PyError
  deriving DecidableEq

/-- A 2 x 2 complex Jones matrix, as a pair of rows. -/
abbrev JonesMatrix : Type := (Cplx × Cplx) × (Cplx × Cplx)

/-- Complex addition on the embedded scalars. -/
def cadd (a b : Cplx) : Cplx := (a.1 + b.1, a.2 + b.2)

/-- Complex multiplication on the embedded scalars. -/
def cmul (a b : Cplx) : Cplx := (a.1 * b.1 - a.2 * b.2, a.1 * b.2 + a.2 * b.1)

/-- A polarized probe: the two polarization components, each an M x L complex
field (the source keeps them along a designated axis of size 2). -/
structure PolProbe where
  xcomp : CMatrix
  ycomp : CMatrix
  deriving DecidableEq

/-- Pointwise combination of two complex fields. -/
def map2M (f : Cplx → Cplx → Cplx) (a b : CMatrix) : CMatrix :=
  List.zipWith (List.zipWith f) a b

/-- polarization.apply_jones_matrix in the single-matrix, single-field
regime: the source's unsqueeze / transpose / matmul / transpose / squeeze
sequence realizes exactly the pointwise 2-vector matrix product on the
polarization axis, which is what this embedding computes. -/
def apply_jones_matrix (probe : PolProbe) (jones_matrix : JonesMatrix) : PolProbe :=
  { xcomp := map2M (fun a b => cadd (cmul jones_matrix.1.1 a) (cmul jones_matrix.1.2 b))
      probe.xcomp probe.ycomp
    ycomp := map2M (fun a b => cadd (cmul jones_matrix.2.1 a) (cmul jones_matrix.2.2 b))
      probe.xcomp probe.ycomp }

/-- polarization.apply_phase_retardance: the source builds the Jones matrix
t.tensor([[1, 0], [0, phase_shift]]).to(dtype=cfloat), i.e. the raw
phase_shift value (in degrees) is placed as the y-y entry, and applies it. -/
def apply_phase_retardance (probe : PolProbe) (phase_shift : ℚ) : PolProbe :=
  apply_jones_matrix probe (((1, 0), (0, 0)), ((0, 0), (phase_shift, 0)))

/-- polarization.apply_linear_polarizer: the body's first statement is
generate_linear_polarizer(polarization), but no name polarization is bound
anywhere in the module (the parameter is named polarizer), so every call
raises NameError before any Jones matrix is built. -/
def apply_linear_polarizer (probe : PolProbe) (polarizer : ℚ)
    (multiple_modes : Bool) (transpose : Bool) : Except PyError PolProbe :=
  Except.error (PyError.nameError "polarization")

/-- The CDIModel stage contract from models/base.py.  Each stage a concrete
model fails to override keeps the base-class body, which unconditionally
raises NotImplementedError; the defaults below are those base-class bodies.
The result type M of from_dataset stands for the constructed model. -/
structure CDIModel (Ds M Args Exit Det Pat L : Type) where
  from_dataset : Ds → Except PyError M := fun _ => Except.error PyError.notImplementedError
  interaction : Args → Except PyError Exit := fun _ => Except.error PyError.notImplementedError
  forward_propagator : Exit → Except PyError Det := fun _ => Except.error PyError.notImplementedError
  backward_propagator : Det → Except PyError Exit := fun _ => Except.error PyError.notImplementedError
  measurement : Det → Except PyError Pat := fun _ => Except.error PyError.notImplementedError
  loss : Pat → Pat → Except PyError L := fun _ _ => Except.error PyError.notImplementedError

/-- CDIModel.forward: the fixed composition
measurement(forward_propagator(interaction(args))), defined once on the base
class and inherited (never overridden) by every model; errors raised by a
stage propagate. -/
def CDIModel.forward {Ds M Args Exit Det Pat L : Type}
    (m : CDIModel Ds M Args Exit Det Pat L) (args : Args) : Except PyError Pat :=
  (m.interaction args).bind fun exit_wave =>
    (m.forward_propagator exit_wave).bind fun detector_wave =>
      m.measurement detector_wave

/-- The base CDIModel itself: no stage overridden. -/
def CDIModel.base (Ds M Args Exit Det Pat L : Type) : CDIModel Ds M Args Exit Det Pat L := {}

/-- The data a concrete model contributes to AD_optimize, abstracted over the
parameter state σ, the per-pattern inputs ι, the observed patterns ρ and the
regularization-factor type γ.  chunkLoss is the detached value of
self.loss(pats, self.forward(*inp)) on one sub-chunk; chunkGrad is the
gradient contribution that the corresponding loss.backward() accumulates;
regularizer is present exactly when the model has the regularizer attribute
and returns the penalty value and the gradient its backward() accumulates;
patternSignal is t.sum over one observed pattern. -/
structure ADModel (σ ι ρ γ : Type) where
  chunkLoss : σ → List ι → List ρ → ℚ
  chunkGrad : σ → List ι → List ρ → ℚ
  regularizer : Option (σ → γ → ℚ × ℚ)
  patternSignal : ρ → ℚ

/-- Python chunking by list slicing:
[xs[i : i + cw] for i in range(0, n, cw)] with n = len(inputs[0]). -/
def pychunks {α : Type} (cw n : Nat) (xs : List α) : List (List α) :=
  (List.range ((n + cw - 1) / cw)).map (fun j => (xs.drop (j * cw)).take cw)

/-- The number of sub-chunks of a batch of n patterns at a given
calculation width. -/
def numChunks (cw n : Nat) : Nat := (n + cw - 1) / cw

/-- The chunk loop inside the closure of AD_optimize: for each sub-chunk the
cooperative stop signal is checked first (the signal is indexed by a global
check counter k; on a set signal the loop exits without a result), then the
chunk is run forward, its loss backpropagated (accumulating into grad) and
its detached value added to total_loss. -/
def closureChunks {σ ι ρ γ : Type} (m : ADModel σ ι ρ γ) (p : σ) (stop : Nat → Bool) :
    List (List ι × List ρ) → Nat → ℚ → ℚ → Option (ℚ × ℚ × Nat)
  | [], k, total_loss, grad => some (total_loss, grad, k)
  | c :: cs, k, total_loss, grad =>
    if stop k then none
    else closureChunks m p stop cs (k + 1) (total_loss + m.chunkLoss p c.1 c.2)
      (grad + m.chunkGrad p c.1 c.2)

/-- The closure of AD_optimize: zero the gradients, cut the batch into
sub-chunks of calculation_width, accumulate loss values and gradients over
the chunks, then, when a regularization factor is configured and the model
has a regularizer, backpropagate the penalty (its gradient joins the
accumulated gradient) while returning only total_loss. -/
def AD_optimize.closure {σ ι ρ γ : Type} (m : ADModel σ ι ρ γ) (regularization_factor : Option γ)
    (calculation_width : Nat) (stop : Nat → Bool) (p : σ) (k : Nat)
    (b : List ι × List ρ) : Option (ℚ × ℚ × Nat) :=
  let input_chunks := pychunks calculation_width b.1.length b.1
  let pattern_chunks := pychunks calculation_width b.1.length b.2
  match closureChunks m p stop (input_chunks.zip pattern_chunks) k 0 0 with
  | none => none
  | some (total_loss, grad, kf) =>
    match regularization_factor, m.regularizer with
    | some rf, some reg => some (total_loss, grad + (reg p rf).2, kf)
    | _, _ => some (total_loss, grad, kf)

/-- One optimizer.step(closure) on one minibatch: the closure is evaluated,
the optimizer consumes the accumulated gradient to update the parameters
(optStep is the optimizer's abstract update rule), and the closure's
returned loss value is handed back. -/
def optStepBatch {σ ι ρ γ : Type} (m : ADModel σ ι ρ γ) (optStep : σ → ℚ → σ)
    (regularization_factor : Option γ) (calculation_width : Nat) (stop : Nat → Bool)
    (p : σ) (k : Nat) (b : List ι × List ρ) : Option (σ × ℚ × Nat) :=
  match AD_optimize.closure m regularization_factor calculation_width stop p k b with
  | none => none
  | some (total_loss, grad, kf) => some (optStep p grad, total_loss, kf)

/-- The minibatch loop of run_iteration: loss += optimizer.step(closure) for
each batch of the data loader, threading the parameters and the stop-check
counter. -/
def runBatches {σ ι ρ γ : Type} (m : ADModel σ ι ρ γ) (optStep : σ → ℚ → σ)
    (regularization_factor : Option γ) (calculation_width : Nat) (stop : Nat → Bool) :
    List (List ι × List ρ) → σ → ℚ → Nat → Option (σ × ℚ × Nat)
  | [], p, loss, k => some (p, loss, k)
  | b :: bs, p, loss, k =>
    match optStepBatch m optStep regularization_factor calculation_width stop p k b with
    | none => none
    | some (pf, l, kf) =>
      runBatches m optStep regularization_factor calculation_width stop bs pf (loss + l) kf

/-- The Epoch / Loss Record state of a model during AD_optimize. -/
structure ADState (σ : Type) where
  params : σ
  loss_train : List ℚ

/-- run_iteration of AD_optimize: run the minibatch loop, divide the
accumulated loss by the normalization, append the result to loss_train and
return it.  (The learning-rate scheduler only mutates optimizer-internal
state and is subsumed by the abstract update rule.)  On a set stop signal
the epoch aborts with no appended entry. -/
def run_iteration {σ ι ρ γ : Type} (m : ADModel σ ι ρ γ) (optStep : σ → ℚ → σ)
    (regularization_factor : Option γ) (calculation_width : Nat) (stop : Nat → Bool)
    (data_loader : List (List ι × List ρ)) (normalization : ℚ)
    (st : ADState σ) (k : Nat) : Option (ADState σ × ℚ × Nat) :=
  match runBatches m optStep regularization_factor calculation_width stop
      data_loader st.params 0 k with
  | none => none
  | some (pf, loss, kf) =>
    let l := loss / normalization
    some ({ params := pf, loss_train := st.loss_train ++ [l] }, l, kf)

/-- The normalization constant of AD_optimize, computed once per call: the
total observed signal summed over every pattern of the whole dataset. -/
def normalizationOf {σ ι ρ γ : Type} (m : ADModel σ ι ρ γ)
    (data_loader : List (List ι × List ρ)) : ℚ :=
  (data_loader.map (fun b => (b.2.map m.patternSignal).sum)).sum

/-- The epoch loop of AD_optimize: run_iteration once per requested epoch,
collecting the yielded losses in order; a cancelled epoch ends the call with
the state as it was before that epoch. -/
def optimizeLoop {σ ι ρ γ : Type} (m : ADModel σ ι ρ γ) (optStep : σ → ℚ → σ)
    (regularization_factor : Option γ) (calculation_width : Nat) (stop : Nat → Bool)
    (data_loader : List (List ι × List ρ)) (normalization : ℚ) :
    Nat → ADState σ → Nat → List ℚ × ADState σ
  | 0, st, _ => ([], st)
  | n + 1, st, k =>
    match run_iteration m optStep regularization_factor calculation_width stop
        data_loader normalization st k with
    | none => ([], st)
    | some (st2, l, kf) =>
      let rest := optimizeLoop m optStep regularization_factor calculation_width stop
        data_loader normalization n st2 kf
      (l :: rest.1, rest.2)

/-- CDIModel.AD_optimize: compute the normalization once, then run the
requested number of epochs, yielding one loss per completed epoch. -/
def AD_optimize {σ ι ρ γ : Type} (m : ADModel σ ι ρ γ) (optStep : σ → ℚ → σ)
    (iterations : Nat) (data_loader : List (List ι × List ρ))
    (regularization_factor : Option γ) (calculation_width : Nat) (stop : Nat → Bool)
    (st : ADState σ) : List ℚ × ADState σ :=
  let normalization := normalizationOf m data_loader
  optimizeLoop m optStep regularization_factor calculation_width stop
    data_loader normalization iterations st 0

/-- The loss value one closure call returns: the per-chunk data losses of the
batch, accumulated over the chunking; the regularizer never contributes to
this value. -/
def closureLossVal {σ ι ρ γ : Type} (m : ADModel σ ι ρ γ) (calculation_width : Nat)
    (p : σ) (b : List ι × List ρ) : ℚ :=
  (((pychunks calculation_width b.1.length b.1).zip
      (pychunks calculation_width b.1.length b.2)).map
    (fun c => m.chunkLoss p c.1 c.2)).sum

/-- The gradient one closure call accumulates: the per-chunk backward
contributions plus, when configured, the regularizer's backward
contribution. -/
def closureGradVal {σ ι ρ γ : Type} (m : ADModel σ ι ρ γ)
    (regularization_factor : Option γ) (calculation_width : Nat)
    (p : σ) (b : List ι × List ρ) : ℚ :=
  let g := (((pychunks calculation_width b.1.length b.1).zip
      (pychunks calculation_width b.1.length b.2)).map
    (fun c => m.chunkGrad p c.1 c.2)).sum
  match regularization_factor, m.regularizer with
  | some rf, some reg => g + (reg p rf).2
  | _, _ => g

/-- Reference epoch semantics: fold the per-batch step over the data loader,
accumulating the returned closure losses and updating the parameters once
per minibatch. -/
def epochPure {σ ι ρ γ : Type} (m : ADModel σ ι ρ γ) (optStep : σ → ℚ → σ)
    (regularization_factor : Option γ) (calculation_width : Nat)
    (data_loader : List (List ι × List ρ)) (p : σ) : σ × ℚ :=
  data_loader.foldl
    (fun pl b =>
      (optStep pl.1 (closureGradVal m regularization_factor calculation_width pl.1 b),
       pl.2 + closureLossVal m calculation_width pl.1 b))
    (p, 0)

/-- The parameters after n completed epochs. -/
def paramsAt {σ ι ρ γ : Type} (m : ADModel σ ι ρ γ) (optStep : σ → ℚ → σ)
    (regularization_factor : Option γ) (calculation_width : Nat)
    (data_loader : List (List ι × List ρ)) : σ → Nat → σ
  | p, 0 => p
  | p, n + 1 =>
    paramsAt m optStep regularization_factor calculation_width data_loader
      (epochPure m optStep regularization_factor calculation_width data_loader p).1 n

/-- The accumulated (un-normalized) minibatch losses of epoch n. -/
def epochLossAt {σ ι ρ γ : Type} (m : ADModel σ ι ρ γ) (optStep : σ → ℚ → σ)
    (regularization_factor : Option γ) (calculation_width : Nat)
    (data_loader : List (List ι × List ρ)) (p : σ) (n : Nat) : ℚ :=
  (epochPure m optStep regularization_factor calculation_width data_loader
    (paramsAt m optStep regularization_factor calculation_width data_loader p n)).2

/-- The total number of sub-chunks (= stop-signal checks) in one epoch. -/
def totalChunks {ι ρ : Type} (calculation_width : Nat)
    (data_loader : List (List ι × List ρ)) : Nat :=
  (data_loader.map (fun b => numChunks calculation_width b.1.length)).sum

/-- A small concrete ADModel used to witness the optimization theorems. -/
def testModel : ADModel ℚ ℚ ℚ ℚ :=
  { chunkLoss := fun p inp pats => p + inp.sum + pats.sum
    chunkGrad := fun p inp _ => p + inp.sum
    regularizer := some (fun p rf => (p * rf, rf + 1))
    patternSignal := fun x => x }

/-- A concrete model overriding the three forward stages (witness for the
composition theorem). -/
def modelA : CDIModel Unit Unit ℚ ℚ ℚ ℚ ℚ :=
  { interaction := fun a => Except.ok (a + 1)
    forward_propagator := fun ew => Except.ok (ew * 2)
    measurement := fun dw => Except.ok (dw * dw) }

/-- A second concrete model with the same three forward stages but its own
backward propagator (witness for the composition theorem). -/
def modelB : CDIModel Unit Unit ℚ ℚ ℚ ℚ ℚ :=
  { interaction := fun a => Except.ok (a + 1)
    forward_propagator := fun ew => Except.ok (ew * 2)
    measurement := fun dw => Except.ok (dw * dw)
    backward_propagator := fun dw => Except.ok dw }

/-
Helper lemmas shared by the measurement theorems.
-/

lemma cabssq_nonneg (z : Cplx) : 0 ≤ cabssq z := by
  unfold cabssq; positivity

lemma cabssqM_nonneg (w : CMatrix) : ∀ r ∈ cabssqM w, ∀ x ∈ r, 0 ≤ x := by
  intro r hr x hx
  simp only [cabssqM, List.mem_map] at hr
  obtain ⟨row, _, rfl⟩ := hr
  simp only [List.mem_map] at hx
  obtain ⟨z, _, rfl⟩ := hx
  exact cabssq_nonneg z

lemma avg_pool2d_nonneg (m : RMatrix) (k : Nat) (h : ∀ r ∈ m, ∀ x ∈ r, 0 ≤ x) :
    ∀ r ∈ avg_pool2d m k, ∀ x ∈ r, 0 ≤ x := by
  intro r hr x hx
  simp only [avg_pool2d, List.mem_map, List.mem_range] at hr
  obtain ⟨i, _, rfl⟩ := hr
  simp only [List.mem_map, List.mem_range] at hx
  obtain ⟨j, _, rfl⟩ := hx
  apply div_nonneg
  · apply List.sum_nonneg
    intro s hs
    simp only [List.mem_map] at hs
    obtain ⟨row, hrow, rfl⟩ := hs
    apply List.sum_nonneg
    intro y hy
    have hy2 : y ∈ row := List.mem_of_mem_drop (List.mem_of_mem_take hy)
    have hrow2 : row ∈ m := List.mem_of_mem_drop (List.mem_of_mem_take hrow)
    exact h row hrow2 y hy2
  · positivity

lemma applySlice_nonneg (m : RMatrix) (s : DetSlice) (h : ∀ r ∈ m, ∀ x ∈ r, 0 ≤ x) :
    ∀ r ∈ applySlice m s, ∀ x ∈ r, 0 ≤ x := by
  intro r hr x hx
  simp only [applySlice, List.mem_map] at hr
  obtain ⟨row, hrow, rfl⟩ := hr
  have hrow2 : row ∈ m := List.mem_of_mem_drop (List.mem_of_mem_take hrow)
  have hx2 : x ∈ row := List.mem_of_mem_drop (List.mem_of_mem_take hx)
  exact h row hrow2 x hx2

lemma measurePipeline_none_entry (core : RMatrix) (ds : Option DetSlice) (ε : ℚ) (k : Nat)
    (hcore : ∀ r ∈ core, ∀ x ∈ r, 0 ≤ x) :
    ∀ r ∈ measurePipeline core ds ε none k, ∀ x ∈ r, ∃ c, 0 ≤ c ∧ x = c + ε := by
  have hbin : ∀ r ∈ (if k ≠ 1 then avg_pool2d core k else core), ∀ x ∈ r, 0 ≤ x := by
    split_ifs with h
    · exact avg_pool2d_nonneg core k hcore
    · exact hcore
  cases ds with
  | none =>
    intro r hr x hx
    simp only [measurePipeline] at hr
    obtain ⟨r0, hr0, rfl⟩ := List.mem_map.1 hr
    obtain ⟨c, hc, rfl⟩ := List.mem_map.1 hx
    exact ⟨c, hbin r0 hr0 c hc, rfl⟩
  | some s =>
    intro r hr x hx
    simp only [measurePipeline] at hr
    obtain ⟨r0, hr0, rfl⟩ := List.mem_map.1 hr
    obtain ⟨c, hc, rfl⟩ := List.mem_map.1 hx
    exact ⟨c, applySlice_nonneg _ s hbin r0 hr0 c hc, rfl⟩

lemma mem_zipWith_pair {α β γ : Type} {f : α → β → γ} :
    ∀ {l₁ : List α} {l₂ : List β} {x : γ}, x ∈ List.zipWith f l₁ l₂ →
      ∃ a ∈ l₁, ∃ b ∈ l₂, x = f a b := by
  intro l₁
  induction l₁ with
  | nil => intro l₂ x hx; simp at hx
  | cons a as ih =>
    intro l₂ x hx
    cases l₂ with
    | nil => simp at hx
    | cons b bs =>
      simp only [List.zipWith, List.mem_cons] at hx
      rcases hx with rfl | hx
      · exact ⟨a, by simp, b, by simp, rfl⟩
      · obtain ⟨a2, ha2, b2, hb2, rfl⟩ := ih hx
        exact ⟨a2, by simp [ha2], b2, by simp [hb2], rfl⟩

/-- C2: intensity computes the squared magnitude, bins k x k blocks by
averaging when the oversampling factor exceeds 1, restricts to the detector
slice when given, adds epsilon, and clamps into [0, saturation] only when a
saturation is given; without saturation every entry is the binned or sliced
squared magnitude plus epsilon and, for positive epsilon, strictly
positive. -/
theorem C2_intensity_pipeline :
    (∀ (w : CMatrix) (ds : Option DetSlice) (ε : ℚ) (sat : Option ℚ) (k : Nat),
        0 < k → intensity w ds ε sat k = specIntensity w ds ε sat k) ∧
    (∀ (w : CMatrix) (ds : Option DetSlice) (ε : ℚ) (k : Nat),
        0 < ε → ∀ r ∈ intensity w ds ε none k, ∀ x ∈ r, 0 < x) := by
  constructor
  · intro w ds ε sat k hk
    by_cases h : k = 1
    · subst h; simp [intensity, specIntensity]
    · have h2 : 1 < k := by omega
      simp [intensity, specIntensity, h, h2]
  · intro w ds ε k hε r hr x hx
    have hr2 : r ∈ measurePipeline (cabssqM w) ds ε none k := hr
    obtain ⟨c, hc, rfl⟩ :=
      measurePipeline_none_entry (cabssqM w) ds ε k (cabssqM_nonneg w) r hr2 x hx
    linarith

/-- Witness for C2 at a concrete one-pixel wavefield 3 + 4i with epsilon 1
and no binning, slicing or saturation. -/
theorem C2_intensity_pipeline_w :
    intensity [[((3 : ℚ), (4 : ℚ))]] none 1 none 1 =
      specIntensity [[((3 : ℚ), (4 : ℚ))]] none 1 none 1 ∧ (0 : ℚ) < 26 := by
  have h26 : intensity [[((3 : ℚ), (4 : ℚ))]] none 1 none 1 = [[26]] := by
    norm_num [intensity, cabssqM, cabssq]
  refine ⟨C2_intensity_pipeline.1 [[((3 : ℚ), (4 : ℚ))]] none 1 none 1 (by norm_num), ?_⟩
  exact C2_intensity_pipeline.2 [[((3 : ℚ), (4 : ℚ))]] none 1 1 (by norm_num)
    [26] (by rw [h26]; exact List.mem_singleton_self _) 26 (List.mem_singleton_self _)

/-- C3: incoherent_sum sums the squared magnitudes over the leading axis
first, then applies exactly the bin / slice / epsilon / clamp tail of
intensity (sum-then-bin); intensity itself is that same tail applied to a
single squared magnitude. -/
theorem C3_incoherent_sum_sum_then_bin :
    (∀ (ws : List CMatrix) (ds : Option DetSlice) (ε : ℚ) (sat : Option ℚ) (k : Nat),
        incoherent_sum ws ds ε sat k =
          measurePipeline (sumStack (ws.map cabssqM)) ds ε sat k) ∧
    (∀ (w : CMatrix) (ds : Option DetSlice) (ε : ℚ) (sat : Option ℚ) (k : Nat),
        intensity w ds ε sat k = measurePipeline (cabssqM w) ds ε sat k) :=
  ⟨fun _ _ _ _ _ => rfl, fun _ _ _ _ _ => rfl⟩

/-- C4: quadratic_background equals the configured measurement computed
without saturation plus the squared background, with the clamp applied only
afterwards; with the default intensity measurement and no saturation it is
intensity plus the squared background, and is entrywise non-negative for
every real background whenever epsilon is non-negative. -/
theorem C4_quadratic_background_order :
    (∀ (w : CMatrix) (b : RMatrix) (ds : Option DetSlice)
        (meas : CMatrix → Option DetSlice → ℚ → Option ℚ → Nat → RMatrix)
        (ε : ℚ) (sat : Option ℚ) (k : Nat),
        quadratic_background w b ds meas ε sat k =
          applyOptSat sat (addM (meas w ds ε none k) (squareM b))) ∧
    (∀ (w : CMatrix) (b : RMatrix) (ds : Option DetSlice) (ε : ℚ) (k : Nat),
        quadratic_background w b ds intensity ε none k =
          addM (intensity w ds ε none k) (squareM b)) ∧
    (∀ (w : CMatrix) (b : RMatrix) (ds : Option DetSlice) (ε : ℚ) (k : Nat),
        0 ≤ ε → ∀ r ∈ quadratic_background w b ds intensity ε none k, ∀ x ∈ r, 0 ≤ x) := by
  refine ⟨?_, ?_, ?_⟩
  · intro w b ds meas ε sat k
    cases ds <;> cases sat <;> rfl
  · intro w b ds ε k
    cases ds <;> rfl
  · intro w b ds ε k hε r hr x hx
    have hq : quadratic_background w b ds intensity ε none k =
        addM (intensity w ds ε none k) (squareM b) := by cases ds <;> rfl
    rw [hq] at hr
    simp only [addM] at hr
    obtain ⟨r1, hr1, r2, hr2, rfl⟩ := mem_zipWith_pair hr
    simp only [addRows] at hx
    obtain ⟨u, hu, v, hv, rfl⟩ := mem_zipWith_pair hx
    have hr1m : r1 ∈ measurePipeline (cabssqM w) ds ε none k := hr1
    obtain ⟨c, hc, rfl⟩ :=
      measurePipeline_none_entry (cabssqM w) ds ε k (cabssqM_nonneg w) r1 hr1m u hu
    have h2 : 0 ≤ v := by
      simp only [squareM, List.mem_map] at hr2
      obtain ⟨row, _, rfl⟩ := hr2
      simp only [List.mem_map] at hv
      obtain ⟨y, _, rfl⟩ := hv
      positivity
    linarith

/-- Witness for C4 at a one-pixel wavefield 1 + 2i with background -3,
epsilon 0: the result 14 = 5 + 9 is non-negative, and the pipeline equality
holds at a concrete saturation. -/
theorem C4_quadratic_background_order_w :
    quadratic_background [[((1 : ℚ), (2 : ℚ))]] [[(-3 : ℚ)]] none intensity 0 (some 10) 1 =
      applyOptSat (some 10)
        (addM (intensity [[((1 : ℚ), (2 : ℚ))]] none 0 none 1) (squareM [[(-3 : ℚ)]])) ∧
    (0 : ℚ) ≤ 14 := by
  have h14 : quadratic_background [[((1 : ℚ), (2 : ℚ))]] [[(-3 : ℚ)]] none intensity
      0 none 1 = [[14]] := by
    norm_num [quadratic_background, intensity, cabssqM, cabssq, addM, addRows, squareM]
  refine ⟨C4_quadratic_background_order.1 [[((1 : ℚ), (2 : ℚ))]] [[(-3 : ℚ)]] none intensity
     0 (some 10) 1, ?_⟩
  exact C4_quadratic_background_order.2.2 [[((1 : ℚ), (2 : ℚ))]] [[(-3 : ℚ)]] none 0 1
    (le_refl 0) [14] (by rw [h14]; exact List.mem_singleton_self _) 14
    (List.mem_singleton_self _)

/-- C1: forward is exactly the composition
measurement(forward_propagator(interaction(args))) for every model and every
argument accepted by the interaction stage, and the composition itself is
fixed: any two models agreeing on the three stages have identical forward
behaviour. -/
theorem C1_forward_fixed_composition :
    (∀ (Ds M Args Exit Det Pat L : Type) (m : CDIModel Ds M Args Exit Det Pat L)
        (args : Args),
        m.forward args = (m.interaction args).bind
          (fun ew => (m.forward_propagator ew).bind m.measurement)) ∧
    (∀ (Ds M Args Exit Det Pat L : Type) (m1 m2 : CDIModel Ds M Args Exit Det Pat L),
        m1.interaction = m2.interaction →
        m1.forward_propagator = m2.forward_propagator →
        m1.measurement = m2.measurement →
        ∀ args, m1.forward args = m2.forward args) := by
  constructor
  · intro Ds M Args Exit Det Pat L m args
    rfl
  · intro Ds M Args Exit Det Pat L m1 m2 h1 h2 h3 args
    simp [CDIModel.forward, h1, h2, h3]

/-- Witness for C1: two concrete models sharing the three forward stages
(but not the backward propagator) have the same forward value at 3. -/
theorem C1_forward_fixed_composition_w : modelA.forward 3 = modelB.forward 3 :=
  C1_forward_fixed_composition.2 Unit Unit ℚ ℚ ℚ ℚ ℚ modelA modelB rfl rfl rfl 3

/-- C6: every stage a concrete model leaves unimplemented (the base-class
body) signals NotImplementedError on its first call, for every input, and
forward on such a model fails immediately as well. -/
theorem C6_unimplemented_stage_errors :
    ∀ (Ds M Args Exit Det Pat L : Type) (d : Ds) (a : Args) (ew : Exit) (dw : Det)
      (p q : Pat),
      (CDIModel.base Ds M Args Exit Det Pat L).from_dataset d
          = Except.error PyError.notImplementedError ∧
      (CDIModel.base Ds M Args Exit Det Pat L).interaction a
          = Except.error PyError.notImplementedError ∧
      (CDIModel.base Ds M Args Exit Det Pat L).forward_propagator ew
          = Except.error PyError.notImplementedError ∧
      (CDIModel.base Ds M Args Exit Det Pat L).backward_propagator dw
          = Except.error PyError.notImplementedError ∧
      (CDIModel.base Ds M Args Exit Det Pat L).measurement dw
          = Except.error PyError.notImplementedError ∧
      (CDIModel.base Ds M Args Exit Det Pat L).loss p q
          = Except.error PyError.notImplementedError ∧
      (CDIModel.base Ds M Args Exit Det Pat L).forward a
          = Except.error PyError.notImplementedError :=
  fun _ _ _ _ _ _ _ _ _ _ _ _ _ => ⟨rfl, rfl, rfl, rfl, rfl, rfl, rfl⟩

/-- C7: every call of apply_linear_polarizer raises NameError (the body reads
the undefined name polarization instead of its parameter polarizer), in
particular the claimed call at angle 0 on a probe with unit components
never returns a polarized field. -/
theorem C7_apply_linear_polarizer_nameerror :
    apply_linear_polarizer { xcomp := [[((1 : ℚ), 0)]], ycomp := [[((1 : ℚ), 0)]] }
        0 true true = Except.error (PyError.nameError "polarization") ∧
    ∀ (probe : PolProbe) (ang : ℚ) (mm tr : Bool),
      apply_linear_polarizer probe ang mm tr =
        Except.error (PyError.nameError "polarization") :=
  ⟨rfl, fun _ _ _ _ => rfl⟩

/-- C8: apply_phase_retardance multiplies the y-component by the raw
phase-shift value instead of a unit-modulus phase factor: at a phase shift
of 0 degrees the y-component of a unit probe is zeroed (the claim requires
it unchanged), and at 180 degrees it is scaled by 180 (the claim requires a
sign flip). -/
theorem C8_phase_retardance_multiplies_y_by_delta :
    apply_phase_retardance { xcomp := [[((1 : ℚ), 0)]], ycomp := [[((1 : ℚ), 0)]] } 0 =
      { xcomp := [[((1 : ℚ), 0)]], ycomp := [[((0 : ℚ), 0)]] } ∧
    apply_phase_retardance { xcomp := [[((1 : ℚ), 0)]], ycomp := [[((1 : ℚ), 0)]] } 180 =
      { xcomp := [[((1 : ℚ), 0)]], ycomp := [[((180 : ℚ), 0)]] } := by
  constructor <;>
    norm_num [apply_phase_retardance, apply_jones_matrix, map2M, cadd, cmul]

lemma closureChunks_eval {σ ι ρ γ : Type} (m : ADModel σ ι ρ γ) (p : σ) :
    ∀ (cs : List (List ι × List ρ)) (k : Nat) (tl g : ℚ),
      closureChunks m p (fun _ => false) cs k tl g =
        some (tl + (cs.map (fun c => m.chunkLoss p c.1 c.2)).sum,
              g + (cs.map (fun c => m.chunkGrad p c.1 c.2)).sum,
              k + cs.length) := by
  intro cs
  induction cs with
  | nil => intro k tl g; simp [closureChunks]
  | cons c cs ih =>
    intro k tl g
    simp only [closureChunks, Bool.false_eq_true, if_false, ih, List.map_cons,
      List.sum_cons, List.length_cons, Option.some_inj, Prod.mk.injEq]
    refine ⟨by ring, by ring, by omega⟩

lemma closure_eval {σ ι ρ γ : Type} (m : ADModel σ ι ρ γ) (regF : Option γ)
    (cw : Nat) (p : σ) (k : Nat) (b : List ι × List ρ) :
    AD_optimize.closure m regF cw (fun _ => false) p k b =
      some (closureLossVal m cw p b, closureGradVal m regF cw p b,
        k + numChunks cw b.1.length) := by
  have hlen : ((pychunks cw b.1.length b.1).zip (pychunks cw b.1.length b.2)).length
      = numChunks cw b.1.length := by
    simp [pychunks, numChunks, List.length_zip]
  simp only [AD_optimize.closure, closureChunks_eval, zero_add, hlen]
  cases regF with
  | none => simp [closureLossVal, closureGradVal]
  | some rf =>
    cases hreg : m.regularizer with
    | none => simp [closureLossVal, closureGradVal, hreg]
    | some reg => simp [closureLossVal, closureGradVal, hreg]

lemma optStepBatch_eval {σ ι ρ γ : Type} (m : ADModel σ ι ρ γ) (optStep : σ → ℚ → σ)
    (regF : Option γ) (cw : Nat) (p : σ) (k : Nat) (b : List ι × List ρ) :
    optStepBatch m optStep regF cw (fun _ => false) p k b =
      some (optStep p (closureGradVal m regF cw p b), closureLossVal m cw p b,
        k + numChunks cw b.1.length) := by
  simp only [optStepBatch, closure_eval]

lemma runBatches_eval {σ ι ρ γ : Type} (m : ADModel σ ι ρ γ) (optStep : σ → ℚ → σ)
    (regF : Option γ) (cw : Nat) :
    ∀ (bs : List (List ι × List ρ)) (p : σ) (loss : ℚ) (k : Nat),
      runBatches m optStep regF cw (fun _ => false) bs p loss k =
        some ((bs.foldl (fun pl b => (optStep pl.1 (closureGradVal m regF cw pl.1 b),
            pl.2 + closureLossVal m cw pl.1 b)) (p, loss)).1,
          (bs.foldl (fun pl b => (optStep pl.1 (closureGradVal m regF cw pl.1 b),
            pl.2 + closureLossVal m cw pl.1 b)) (p, loss)).2,
          k + totalChunks cw bs) := by
  intro bs
  induction bs with
  | nil => intro p loss k; simp [runBatches, totalChunks]
  | cons b bs ih =>
    intro p loss k
    simp only [runBatches, optStepBatch_eval, ih, List.foldl_cons, totalChunks,
      List.map_cons, List.sum_cons, Option.some_inj, Prod.mk.injEq]
    refine ⟨?_, ?_, ?_⟩ <;> first | trivial | omega

lemma run_iteration_eval {σ ι ρ γ : Type} (m : ADModel σ ι ρ γ) (optStep : σ → ℚ → σ)
    (regF : Option γ) (cw : Nat) (dl : List (List ι × List ρ)) (norm : ℚ)
    (st : ADState σ) (k : Nat) :
    run_iteration m optStep regF cw (fun _ => false) dl norm st k =
      some ({ params := (epochPure m optStep regF cw dl st.params).1,
              loss_train := st.loss_train ++
                [(epochPure m optStep regF cw dl st.params).2 / norm] },
            (epochPure m optStep regF cw dl st.params).2 / norm,
            k + totalChunks cw dl) := by
  simp only [run_iteration, runBatches_eval]
  rfl

lemma paramsAt_succ {σ ι ρ γ : Type} (m : ADModel σ ι ρ γ) (optStep : σ → ℚ → σ)
    (regF : Option γ) (cw : Nat) (dl : List (List ι × List ρ)) (p : σ) (n : Nat) :
    paramsAt m optStep regF cw dl p (n + 1) =
      paramsAt m optStep regF cw dl (epochPure m optStep regF cw dl p).1 n := rfl

lemma epochLossAt_succ {σ ι ρ γ : Type} (m : ADModel σ ι ρ γ) (optStep : σ → ℚ → σ)
    (regF : Option γ) (cw : Nat) (dl : List (List ι × List ρ)) (p : σ) (n : Nat) :
    epochLossAt m optStep regF cw dl p (n + 1) =
      epochLossAt m optStep regF cw dl (epochPure m optStep regF cw dl p).1 n := rfl

lemma optimizeLoop_eval {σ ι ρ γ : Type} (m : ADModel σ ι ρ γ) (optStep : σ → ℚ → σ)
    (regF : Option γ) (cw : Nat) (dl : List (List ι × List ρ)) (norm : ℚ) :
    ∀ (N : Nat) (st : ADState σ) (k : Nat),
      optimizeLoop m optStep regF cw (fun _ => false) dl norm N st k =
        ((List.range N).map (fun n => epochLossAt m optStep regF cw dl st.params n / norm),
         { params := paramsAt m optStep regF cw dl st.params N,
           loss_train := st.loss_train ++
             (List.range N).map
               (fun n => epochLossAt m optStep regF cw dl st.params n / norm) }) := by
  intro N
  induction N with
  | zero => intro st k; simp [optimizeLoop, paramsAt]
  | succ N ih =>
    intro st k
    simp only [optimizeLoop, run_iteration_eval, ih]
    have hmap : (List.range (N + 1)).map
        (fun n => epochLossAt m optStep regF cw dl st.params n / norm) =
      (epochPure m optStep regF cw dl st.params).2 / norm ::
        (List.range N).map (fun n => epochLossAt m optStep regF cw dl
          (epochPure m optStep regF cw dl st.params).1 n / norm) := by
      rw [List.range_succ_eq_map, List.map_cons, List.map_map]
      congr 1
    rw [hmap, paramsAt_succ]
    simp [List.append_assoc]

/-- C5: an AD_optimize call that runs N epochs to completion yields exactly
one loss per epoch, appends exactly those N entries to loss_train in
completion order, and each entry is that epoch's accumulated minibatch
losses divided by the per-call normalization constant, the total observed
signal of the dataset. -/
theorem C5_loss_record :
    ∀ (σ ι ρ γ : Type) (m : ADModel σ ι ρ γ) (optStep : σ → ℚ → σ) (regF : Option γ)
      (cw : Nat) (dl : List (List ι × List ρ)) (N : Nat) (st : ADState σ),
      (AD_optimize m optStep N dl regF cw (fun _ => false) st).1.length = N ∧
      (AD_optimize m optStep N dl regF cw (fun _ => false) st).2.loss_train =
        st.loss_train ++ (AD_optimize m optStep N dl regF cw (fun _ => false) st).1 ∧
      (∀ n, n < N →
        (AD_optimize m optStep N dl regF cw (fun _ => false) st).1.getD n 0 =
          epochLossAt m optStep regF cw dl st.params n / normalizationOf m dl) := by
  intro σ ι ρ γ m optStep regF cw dl N st
  have hA : AD_optimize m optStep N dl regF cw (fun _ => false) st =
      ((List.range N).map
        (fun n => epochLossAt m optStep regF cw dl st.params n / normalizationOf m dl),
       { params := paramsAt m optStep regF cw dl st.params N,
         loss_train := st.loss_train ++ (List.range N).map
           (fun n => epochLossAt m optStep regF cw dl st.params n /
             normalizationOf m dl) }) := by
    simp only [AD_optimize]
    exact optimizeLoop_eval m optStep regF cw dl (normalizationOf m dl) N st 0
  refine ⟨?_, ?_, ?_⟩
  · rw [hA]; simp
  · rw [hA]
  · intro n hn
    rw [hA]
    simp [List.getD_eq_getElem?_getD, List.getElem?_map, List.getElem?_range, hn]

/-- Witness for C5 on a one-batch, one-pattern dataset run for one epoch. -/
theorem C5_loss_record_w :
    (AD_optimize testModel (fun p g => p - g) 1 [([(1 : ℚ)], [(2 : ℚ)])] none 1
        (fun _ => false) { params := 0, loss_train := [] }).1.getD 0 0 =
      epochLossAt testModel (fun p g => p - g) none 1 [([(1 : ℚ)], [(2 : ℚ)])] (0 : ℚ) 0 /
        normalizationOf testModel [([(1 : ℚ)], [(2 : ℚ)])] :=
  (C5_loss_record ℚ ℚ ℚ ℚ testModel (fun p g => p - g) none 1
    [([(1 : ℚ)], [(2 : ℚ)])] 1 { params := 0, loss_train := [] }).2.2 0 (by norm_num)

/-- C9: the cooperative stop signal is checked exactly once per sub-chunk
inside the accumulation loop (an uncancelled closure advances the check
counter by the number of sub-chunks of its batch), and a signal already set
before any sub-chunk completes makes the call abort the epoch, yield
nothing and leave loss_train unchanged. -/
theorem C9_stop_checked_per_chunk_and_cancel :
    (∀ (σ ι ρ γ : Type) (m : ADModel σ ι ρ γ) (regF : Option γ) (cw : Nat) (p : σ)
        (k : Nat) (b : List ι × List ρ),
        AD_optimize.closure m regF cw (fun _ => false) p k b =
          some (closureLossVal m cw p b, closureGradVal m regF cw p b,
            k + numChunks cw b.1.length)) ∧
    (∀ (σ ι ρ γ : Type) (m : ADModel σ ι ρ γ) (optStep : σ → ℚ → σ) (regF : Option γ)
        (cw : Nat) (stop : Nat → Bool) (b : List ι × List ρ)
        (bs : List (List ι × List ρ)) (N : Nat) (st : ADState σ),
        b.1 ≠ [] → 0 < cw → stop 0 = true →
        (AD_optimize m optStep N (b :: bs) regF cw stop st).1 = [] ∧
        (AD_optimize m optStep N (b :: bs) regF cw stop st).2.loss_train =
          st.loss_train) := by
  constructor
  · intro σ ι ρ γ m regF cw p k b
    exact closure_eval m regF cw p k b
  · intro σ ι ρ γ m optStep regF cw stop b bs N st hb hcw hstop
    have hlen : 0 < ((pychunks cw b.1.length b.1).zip
        (pychunks cw b.1.length b.2)).length := by
      have hn : 0 < b.1.length := List.length_pos.mpr hb
      simp only [pychunks, List.length_zip, List.length_map, List.length_range, min_self]
      exact Nat.div_pos (by omega) hcw
    obtain ⟨c, cs, hcons⟩ := List.exists_cons_of_ne_nil (List.length_pos.mp hlen)
    have hclosure : AD_optimize.closure m regF cw stop st.params 0 b = none := by
      simp only [AD_optimize.closure]
      rw [hcons]
      simp [closureChunks, hstop]
    cases N with
    | zero => simp [AD_optimize, optimizeLoop]
    | succ N =>
      simp [AD_optimize, optimizeLoop, run_iteration, runBatches, optStepBatch, hclosure]

/-- Witness for C9: with the stop signal set from the start, three requested
epochs on a nonempty dataset yield nothing and leave the loss record [9]. -/
theorem C9_stop_checked_per_chunk_and_cancel_w :
    (AD_optimize testModel (fun p g => p - g) 3 [([(1 : ℚ)], [(2 : ℚ)])] none 1
        (fun _ => true) { params := 5, loss_train := [9] }).1 = [] ∧
    (AD_optimize testModel (fun p g => p - g) 3 [([(1 : ℚ)], [(2 : ℚ)])] none 1
        (fun _ => true) { params := 5, loss_train := [9] }).2.loss_train = [9] :=
  C9_stop_checked_per_chunk_and_cancel.2 ℚ ℚ ℚ ℚ testModel (fun p g => p - g) none 1
    (fun _ => true) ([(1 : ℚ)], [(2 : ℚ)]) [] 3 { params := 5, loss_train := [9] }
    (by simp) (by norm_num) rfl

/-- C10: with a regularization factor configured and a regularizer exposed,
the closure backpropagates the penalty (its gradient contribution joins the
accumulated gradient) but returns only the per-chunk data losses, and the
epoch loss appended by run_iteration is the normalized sum of those data
losses alone. -/
theorem C10_regularizer_value_excluded :
    ∀ (σ ι ρ γ : Type) (m : ADModel σ ι ρ γ) (reg : σ → γ → ℚ × ℚ),
      m.regularizer = some reg →
      ∀ (rf : γ) (cw : Nat),
      (∀ (p : σ) (k : Nat) (b : List ι × List ρ),
        AD_optimize.closure m (some rf) cw (fun _ => false) p k b =
          some (closureLossVal m cw p b,
            (((pychunks cw b.1.length b.1).zip (pychunks cw b.1.length b.2)).map
              (fun c => m.chunkGrad p c.1 c.2)).sum + (reg p rf).2,
            k + numChunks cw b.1.length)) ∧
      (∀ (optStep : σ → ℚ → σ) (dl : List (List ι × List ρ)) (norm : ℚ)
          (st : ADState σ) (k : Nat),
        run_iteration m optStep (some rf) cw (fun _ => false) dl norm st k =
          some ({ params := (epochPure m optStep (some rf) cw dl st.params).1,
                  loss_train := st.loss_train ++
                    [(epochPure m optStep (some rf) cw dl st.params).2 / norm] },
                (epochPure m optStep (some rf) cw dl st.params).2 / norm,
                k + totalChunks cw dl)) := by
  intro σ ι ρ γ m reg hreg rf cw
  constructor
  · intro p k b
    rw [closure_eval]
    simp [closureGradVal, hreg]
  · intro optStep dl norm st k
    exact run_iteration_eval m optStep (some rf) cw dl norm st k

/-- Witness for C10 on a one-batch dataset with regularization factor 4. -/
theorem C10_regularizer_value_excluded_w :
    run_iteration testModel (fun p g => p - g) (some 4) 1 (fun _ => false)
        [([(1 : ℚ)], [(3 : ℚ)])] 2 { params := 0, loss_train := [] } 0 =
      some ({ params := (epochPure testModel (fun p g => p - g) (some 4) 1
                [([(1 : ℚ)], [(3 : ℚ)])] 0).1,
              loss_train := [] ++ [(epochPure testModel (fun p g => p - g) (some 4) 1
                [([(1 : ℚ)], [(3 : ℚ)])] 0).2 / 2] },
            (epochPure testModel (fun p g => p - g) (some 4) 1
              [([(1 : ℚ)], [(3 : ℚ)])] 0).2 / 2,
            0 + totalChunks 1 [([(1 : ℚ)], [(3 : ℚ)])]) :=
  (C10_regularizer_value_excluded ℚ ℚ ℚ ℚ testModel (fun p rf => (p * rf, rf + 1))
    rfl 4 1).2 (fun p g => p - g) [([(1 : ℚ)], [(3 : ℚ)])] 2
    { params := 0, loss_train := [] } 0
